import Mathlib

/-!
# Verification of the x8Dsub-byte tensor container (bapXai/x8Dsub-byte)

Shallow embedding of the repository's Rust sources:
  * src/safetensors/src/x8d_tensor.rs  (dtype catalog, metadata model, layout
    planner, codec writer/reader, the x8d byte transform)
  * src/src/slice.rs                   (strided sub-range slice iterator)

Conventions of the embedding:
  * Rust `usize`/`u64` values are modelled as `Nat`; wherever the source uses
    checked arithmetic (`checked_mul`, `checked_add`) the overflow bound
    2^64 is made explicit.
  * Byte buffers (`&[u8]`, `Vec<u8>`) are `List Nat` whose entries are byte
    values; Rust strings are carried as their UTF-8 byte lists, and string
    comparison is byte-lexicographic exactly as Rust's `Ord for String`.
  * Rust `Result` is `Except`, `Option` is `Option`.
-/

namespace X8D

instance {ε α : Type _} [DecidableEq ε] [DecidableEq α] : DecidableEq (Except ε α) := fun
  | .ok a, .ok b => decidable_of_iff (a = b) (by simp)
  | .ok _, .error _ => .isFalse (by simp)
  | .error _, .ok _ => .isFalse (by simp)
  | .error a, .error b => decidable_of_iff (a = b) (by simp)

/-- 2^64, the number of values of a 64-bit `usize`; Rust's checked arithmetic
fails when a result does not fit below this bound. -/
def usizeBound : Nat := 18446744073709551616

/-- Rust `usize::checked_mul`. -/
def checkedMul (a b : Nat) : Option Nat :=
  if a * b < usizeBound then some (a * b) else none

/-- Rust `usize::checked_add`. -/
def checkedAdd (a b : Nat) : Option Nat :=
  if a + b < usizeBound then some (a + b) else none

/-- `MAX_HEADER_SIZE` from x8d_tensor.rs. -/
def MAX_HEADER_SIZE : Nat := 100000000

/-- `N_LEN = size_of::<u64>()` from x8d_tensor.rs. -/
def N_LEN : Nat := 8

/-- Little-endian value of a byte list (the first byte is least significant);
`le64` of the 8-byte prefix models `u64::from_le_bytes`. -/
def le64 (l : List Nat) : Nat := l.foldr (fun b acc => b + 256 * acc) 0

/-- The 8 little-endian bytes of `n`, modelling `u64::to_le_bytes`. -/
def u64le (n : Nat) : List Nat := (List.range 8).map (fun i => n / 256 ^ i % 256)

/-- Rust slice indexing `&data[start..stop]` (well-defined when
`start ≤ stop ≤ data.length`, which every use below checks first). -/
def sliceBytes (data : List Nat) (start stop : Nat) : List Nat :=
  (data.drop start).take (stop - start)

/-- Rust `usize::next_multiple_of`. -/
def nextMultipleOf (a k : Nat) : Nat := ((a + k - 1) / k) * k

/-- Rust `Vec::resize(newLen, v)`: truncate or pad with `v` on the right. -/
def listResize (l : List Nat) (newLen : Nat) (v : Nat) : List Nat :=
  if newLen ≤ l.length then l.take newLen
  else l ++ List.replicate (newLen - l.length) v

/-- Byte-lexicographic order on byte lists: Rust's `Ord` for `String`/`[u8]`.
`bytesLe x y` is true when `x ≤ y`. -/
def bytesLe : List Nat → List Nat → Bool
  | [], _ => true
  | _ :: _, [] => false
  | x :: xs, y :: ys => if x < y then true else if y < x then false else bytesLe xs ys

/-! ## The x8d byte transform (x8d_tensor.rs lines 21-35)

`apply_x8d_algorithm` computes `((b as f64) * 0.001) as u8` for every byte.
For a byte value `0 ≤ b ≤ 255` the real product `b * 0.001` lies in
`[0, 0.2551]`; the f64 literal `0.001` and the rounded product differ from
the real value by less than one part in 2^52, which cannot move the product
across an integer boundary on this range, so the truncating `as u8` cast
yields exactly `⌊b / 1000⌋` (that is, `0` for every byte). The embedding
carries that exact value. -/
def apply_x8d_byte (b : Nat) : Nat := b / 1000

/-- `apply_x8d_algorithm` from x8d_tensor.rs: maps the transform over a buffer. -/
def apply_x8d_algorithm (data : List Nat) : List Nat := data.map apply_x8d_byte

/-- `reverse_x8d_algorithm`'s per-byte step: `((b as f64) / 0.001).round() as u8`.
For a byte `b`, the f64 quotient equals `b * 1000` up to a relative error
below 2^-50, so `.round()` (round half away from zero) returns exactly
`b * 1000`; Rust's float-to-int `as u8` cast then saturates at 255. -/
def reverse_x8d_byte (b : Nat) : Nat := min (b * 1000) 255

/-- `reverse_x8d_algorithm` from x8d_tensor.rs. -/
def reverse_x8d_algorithm (data : List Nat) : List Nat := data.map reverse_x8d_byte

/-! ## Dtype catalog (x8d_tensor.rs lines 885-970) -/

/-- `Dtype` from x8d_tensor.rs, variants in source declaration order (the
derived `Ord` compares by that order). -/
inductive Dtype
  | BOOL
  | F4
  | F6_E2M3
  | F6_E3M2
  | U8
  | I8
  | F8_E5M2
  | F8_E4M3
  | F8_E8M0
  | I16
  | U16
  | F16
  | BF16
  | I32
  | U32
  | F32
  | C64
  | F64
  | I64
  | U64
deriving DecidableEq, Fintype

/-- Declaration index of a `Dtype` variant; Rust's derived `Ord` on a
fieldless enum compares these indices. -/
def Dtype.toIdx : Dtype → Nat
  | .BOOL => 0
  | .F4 => 1
  | .F6_E2M3 => 2
  | .F6_E3M2 => 3
  | .U8 => 4
  | .I8 => 5
  | .F8_E5M2 => 6
  | .F8_E4M3 => 7
  | .F8_E8M0 => 8
  | .I16 => 9
  | .U16 => 10
  | .F16 => 11
  | .BF16 => 12
  | .I32 => 13
  | .U32 => 14
  | .F32 => 15
  | .C64 => 16
  | .F64 => 17
  | .I64 => 18
  | .U64 => 19

/-- The derived strict order `<` on `Dtype` (declaration order). -/
def Dtype.lt (a b : Dtype) : Bool := a.toIdx < b.toIdx

/-- `Dtype::bitsize` from x8d_tensor.rs. -/
def Dtype.bitsize : Dtype → Nat
  | .F4 => 4
  | .F6_E3M2 => 6
  | .F6_E2M3 => 6
  | .BOOL => 8
  | .U8 => 8
  | .I8 => 8
  | .F8_E5M2 => 8
  | .F8_E4M3 => 8
  | .F8_E8M0 => 8
  | .I16 => 16
  | .U16 => 16
  | .I32 => 32
  | .U32 => 32
  | .I64 => 64
  | .U64 => 64
  | .F16 => 16
  | .BF16 => 16
  | .F32 => 32
  | .F64 => 64
  | .C64 => 64

/-- `Dtype::size` from x8d_tensor.rs: `bitsize / 8` (integer division; `0`
for the sub-byte dtypes). -/
def Dtype.size (d : Dtype) : Nat := d.bitsize / 8

/-! ## Tensor structures -/

/-- `TensorInfo` from x8d_tensor.rs: dtype, shape and the byte-offset range
of one tensor inside the payload. -/
structure TensorInfo where
  dtype : Dtype
  shape : List Nat
  data_offsets : Nat × Nat
deriving DecidableEq

/-- `TensorView` from x8d_tensor.rs: dtype, shape and the tensor's bytes.
The Rust struct borrows its bytes; the embedding carries them by value.
It also serves as the model of a caller tensor implementing the `View`
trait (for which `data_len()` is `data.len()`, as in the source's own
`impl View for TensorView`). -/
structure TensorView where
  dtype : Dtype
  shape : List Nat
  data : List Nat
deriving DecidableEq

/-- `X8DsubByteError` from x8d_tensor.rs. Payloads that are opaque in this
model (Utf8Error, serde_json::Error, io::Error) are dropped. -/
inductive X8DsubByteError
  | InvalidHeader
  | InvalidHeaderStart
  | InvalidHeaderDeserialization
  | HeaderTooLarge
  | HeaderTooSmall
  | InvalidHeaderLength
  | TensorNotFound (name : List Nat)
  | TensorInvalidInfo
  | InvalidOffset (name : List Nat)
  | JsonError
  | InvalidTensorView (dtype : Dtype) (shape : List Nat) (n_bytes : Nat)
  | MetadataIncompleteBuffer
  | ValidationOverflow
  | MisalignedSlice
deriving DecidableEq

/-- `InvalidSlice` from slice.rs. -/
inductive InvalidSlice
  | TooManySlices
  | SliceOutOfRange (dim_index asked dim_size : Nat)
  | MisalignedSlice
deriving DecidableEq

/-- Product of a list, modelling `Iterator::product` over `usize`. -/
def prodList (l : List Nat) : Nat := l.foldl (fun a b => a * b) 1

/-- `TensorView::new` from x8d_tensor.rs. -/
def TensorView.new (dtype : Dtype) (shape : List Nat) (data : List Nat) :
    Except X8DsubByteError TensorView :=
  let n_elements := prodList shape
  let nbits := n_elements * dtype.bitsize
  if nbits % 8 ≠ 0 then .error .MisalignedSlice
  else
    let size := nbits / 8
    if data.length ≠ size then .error (.InvalidTensorView dtype shape data.length)
    else .ok ⟨dtype, shape, data⟩

/-! ## Slicing engine (slice.rs) -/

/-- A Rust range bound (`core::ops::Bound<&usize>`). -/
inductive RBound
  | included (n : Nat)
  | excluded (n : Nat)
  | unbounded
deriving DecidableEq

/-- `IndexOp` from slice.rs. The source lists one `Slice` variant per
concrete Rust range type; `SliceIterator::new` only consumes a range
through its `start_bound()` and `end_bound()`, which this embedding
carries directly. -/
inductive IndexOp
  | Single (idx : Nat)
  | Slice (startBound stopBound : RBound)
deriving DecidableEq

/-- The `TensorIndexer` struct from slice.rs: one slice spec, a list of
index operations for a dimension (built by repeated `mul`). -/
structure TensorIndexer where
  indexer : List IndexOp
deriving DecidableEq

/-- The body of the `for op in &indexer.indexer` loop of
`SliceIterator::new`: each op overwrites the running range for dimension
`dim_index` (of size `dim_size`) after its bound checks. -/
def resolveOps (dim_index dim_size : Nat) :
    List IndexOp → Nat × Nat → Except InvalidSlice (Nat × Nat)
  | [], range => .ok range
  | .Single idx :: rest, _ =>
      if idx ≥ dim_size then .error (.SliceOutOfRange dim_index idx dim_size)
      else resolveOps dim_index dim_size rest (idx, idx + 1)
  | .Slice sb eb :: rest, _ =>
      let start := match sb with
        | .included n => n
        | .excluded n => n + 1
        | .unbounded => 0
      let stop := match eb with
        | .included n => n + 1
        | .excluded n => n
        | .unbounded => dim_size
      if start ≥ dim_size ∨ stop > dim_size ∨ start > stop then
        .error (.SliceOutOfRange dim_index
          (if start ≥ dim_size then start else stop) dim_size)
      else resolveOps dim_index dim_size rest (start, stop)

/-- The per-dimension loop of `SliceIterator::new`: dimension `i` takes the
resolved range of `slices[i]` when `i < slices.len()`, else the full range. -/
def resolveDims (slices : List TensorIndexer) :
    Nat → List Nat → Except InvalidSlice (List (Nat × Nat))
  | _, [] => .ok []
  | i, dim_size :: rest => do
      let range ← match slices.get? i with
        | some indexer => resolveOps i dim_size indexer.indexer (0, dim_size)
        | none => Except.ok (0, dim_size)
      let ranges ← resolveDims slices (i + 1) rest
      return range :: ranges

/-- The stride loop of `SliceIterator::new`, walking the reversed shape with
a running stride starting at 1. -/
def stridesRev : List Nat → Nat → List Nat
  | [], _ => []
  | d :: rest, stride => stride :: stridesRev rest (stride * d)

/-- Row-major strides of the original shape (`strides` in
`SliceIterator::new`). -/
def stridesOf (shape : List Nat) : List Nat := (stridesRev shape.reverse 1).reverse

/-- `SliceIterator` from slice.rs. `shape` is the tensor's original shape
(the source stores it for its stride and carry computations); the selected
start/end indices computed during construction are dropped by the source. -/
structure SliceIterator where
  tensor : TensorView
  shape : List Nat
  strides : List Nat
  current : List Nat
  index : Nat
  n_elements : Nat
  element_size : Nat
deriving DecidableEq

/-- `SliceIterator::new` from slice.rs lines 207-297. -/
def SliceIterator.new (tensor : TensorView) (slices : List TensorIndexer) :
    Except InvalidSlice SliceIterator :=
  let shape := tensor.shape
  if slices.length > shape.length then .error .TooManySlices
  else
    match resolveDims slices 0 shape with
    | .error e => .error e
    | .ok ranges =>
        let new_shape := ranges.map (fun r => r.2 - r.1)
        .ok { tensor := tensor
              shape := shape
              strides := stridesOf shape
              current := List.replicate new_shape.length 0
              index := 0
              n_elements := prodList new_shape
              element_size := tensor.dtype.size }

/-- The linear-index loop of `SliceIterator::next`: the source computes
`actual_pos = shape[i] - (shape[i] - current[i])` (its comment notes this
is just `current[i]`; the slice start is not added) and accumulates
`actual_pos * strides[i]`. The three lists have equal length for every
state built by `new`. -/
def linIndex : List Nat → List Nat → List Nat → Nat
  | c :: cs, d :: ds, st :: sts => (d - (d - c)) * st + linIndex cs ds sts
  | _, _, _ => 0

/-- The carry loop of `SliceIterator::next` on the reversed counter and
reversed shape: the bound tested is `shape[i] - (shape[i] - shape[i])`,
i.e. the original dimension size. The fallback when the shape list is
exhausted is unreachable for states built by `new` (equal lengths). -/
def odoRev : List Nat → List Nat → List Nat
  | [], _ => []
  | c :: cs, d :: ds => if c + 1 ≥ d then 0 :: odoRev cs ds else (c + 1) :: cs
  | c :: cs, [] => (c + 1) :: cs

/-- One carry-propagation step of the counter (last dimension varies fastest). -/
def odometer (current shape : List Nat) : List Nat :=
  (odoRev current.reverse shape.reverse).reverse

/-- `SliceIterator::next` from slice.rs lines 303-344, as a state-passing
step: returns the emitted item and the successor state. -/
def SliceIterator.next (it : SliceIterator) : Option (List Nat) × SliceIterator :=
  if it.n_elements ≤ it.index then (none, it)
  else
    let linear_index := linIndex it.current it.shape it.strides
    let element_size := it.tensor.dtype.size
    let start := linear_index * element_size
    let stop := start + element_size
    let it' : SliceIterator :=
      { it with current := odometer it.current it.shape, index := it.index + 1 }
    if start < it.tensor.data.length ∧ stop ≤ it.tensor.data.length then
      (some (sliceBytes it.tensor.data start stop), it')
    else
      (none, it')

/-- Results of `k` successive calls to `next`. -/
def SliceIterator.nexts : SliceIterator → Nat → List (Option (List Nat))
  | _, 0 => []
  | it, k + 1 =>
      let step := it.next
      step.1 :: step.2.nexts k

/-! ## Strings as UTF-8 byte lists -/

/-- UTF-8 encoding of one code point. -/
def utf8Enc (n : Nat) : List Nat :=
  if n < 128 then [n]
  else if n < 2048 then [192 + n / 64, 128 + n % 64]
  else if n < 65536 then [224 + n / 4096, 128 + n / 64 % 64, 128 + n % 64]
  else [240 + n / 262144, 128 + n / 4096 % 64, 128 + n / 64 % 64, 128 + n % 64]

/-- UTF-8 encoding of one character. -/
def utf8Char (c : Char) : List Nat := utf8Enc c.toNat

/-- The UTF-8 bytes of a string: how Rust `String` values are carried here. -/
def strBytes (s : String) : List Nat := s.data.foldr (fun c acc => utf8Char c ++ acc) []

/-! ## Metadata model (x8d_tensor.rs lines 606-775)

The Rust `index_map` is a `HashMap<String, usize>` built by inserting each
tensor name with its position. The embedding keeps an association list with
insert-overwrite semantics; `HashMap` iteration order is unspecified in
Rust, and every operation modelled below is order-independent (lookups by
key or by value, where values are distinct). -/

/-- `HashMap::insert`: overwrite the binding of `k` if present, else add it. -/
def assocInsert : List (List Nat × Nat) → List Nat → Nat → List (List Nat × Nat)
  | [], k, v => [(k, v)]
  | (k', v') :: rest, k, v =>
      if k' = k then (k, v) :: rest else (k', v') :: assocInsert rest k v

/-- The `index_map` built by `Metadata::new`: each name inserted with its
enumeration index. -/
def indexMapOf (names : List (List Nat)) : List (List Nat × Nat) :=
  names.enum.foldl (fun m p => assocInsert m p.2 p.1) []

/-- `HashMap::get` by key. -/
def assocFind (m : List (List Nat × Nat)) (k : List Nat) : Option Nat :=
  (m.find? (fun p => p.1 == k)).map (fun p => p.2)

/-- The `find_map` of `Metadata::validate`: the key bound to value `i`
(at most one, since the values inserted are distinct indices). -/
def findNameFor (m : List (List Nat × Nat)) (i : Nat) : Option (List Nat) :=
  (m.find? (fun p => p.2 == i)).map (fun p => p.1)

/-- `Metadata` from x8d_tensor.rs. -/
structure Metadata where
  metadata : Option (List (List Nat × List Nat))
  tensors : List TensorInfo
  index_map : List (List Nat × Nat)
deriving DecidableEq

/-- Checked product: `shape.iter().copied().try_fold(1usize, usize::checked_mul)`. -/
def checkedProd : List Nat → Nat → Option Nat
  | [], acc => some acc
  | d :: rest, acc =>
      match checkedMul acc d with
      | some v => checkedProd rest v
      | none => none

/-- The loop of `Metadata::validate` (x8d_tensor.rs lines 702-739): walks the
entries with a running cursor `start` and the entry index `i` (used only to
name the tensor in `InvalidOffset`). -/
def validateGo (im : List (List Nat × Nat)) :
    Nat → Nat → List TensorInfo → Except X8DsubByteError Nat
  | start, _, [] => .ok start
  | start, i, info :: rest =>
      let s := info.data_offsets.1
      let e := info.data_offsets.2
      if s ≠ start ∨ e < s then
        .error (.InvalidOffset ((findNameFor im i).getD (strBytes "no_tensor")))
      else
        match checkedProd info.shape 1 with
        | none => .error .ValidationOverflow
        | some nelements =>
            match checkedMul nelements info.dtype.bitsize with
            | none => .error .ValidationOverflow
            | some nbits =>
                if nbits % 8 ≠ 0 then .error .MisalignedSlice
                else
                  let size := nbits / 8
                  if e - s ≠ size then .error .TensorInvalidInfo
                  else validateGo im e (i + 1) rest

/-- `Metadata::validate`. -/
def Metadata.validate (m : Metadata) : Except X8DsubByteError Nat :=
  validateGo m.index_map 0 0 m.tensors

/-- `Metadata::new`. -/
def Metadata.new (metadata : Option (List (List Nat × List Nat)))
    (tensors : List (List Nat × TensorInfo)) : Except X8DsubByteError Metadata :=
  let m : Metadata :=
    { metadata := metadata
      tensors := tensors.map (fun p => p.2)
      index_map := indexMapOf (tensors.map (fun p => p.1)) }
  match m.validate with
  | .error e => .error e
  | .ok _ => .ok m

/-- `Metadata::data_len`: end offset of the last entry, or 0. -/
def Metadata.data_len (m : Metadata) : Nat :=
  match m.tensors.getLast? with
  | some t => t.data_offsets.2
  | none => 0

/-! ## Layout planner and writer (x8d_tensor.rs lines 245-331) -/

/-- The comparator of `prepare`'s `sort_by`:
`right.dtype().cmp(&left.dtype()).then(lname.cmp(rname))`, read as
"left sorts no later than right" (comparator result is not `Greater`):
descending dtype order, ties broken by ascending name. -/
def planLE (a b : List Nat × TensorView) : Prop :=
  b.2.dtype.toIdx < a.2.dtype.toIdx ∨
    (b.2.dtype.toIdx = a.2.dtype.toIdx ∧ bytesLe a.1 b.1 = true)

instance : DecidableRel planLE := fun a b => by
  unfold planLE; infer_instance

/-- The sort performed by `prepare`. Rust's `sort_by` is stable; insertion
sort is stable in the same sense (elements the comparator ties keep their
input order, which can matter only for entries of equal dtype and name). -/
def prepareSort (data : List (List Nat × TensorView)) : List (List Nat × TensorView) :=
  data.insertionSort planLE

/-- The offset-assignment loop of `prepare`: a running cursor accumulates
each tensor's `data_len()` (for the modelled views, the byte length of
`data`), producing the `(name, TensorInfo)` pairs in sorted order. -/
def layoutGo : Nat → List (List Nat × TensorView) → List (List Nat × TensorInfo)
  | _, [] => []
  | offset, (name, t) :: rest =>
      (name, ⟨t.dtype, t.shape, (offset, offset + t.data.length)⟩)
        :: layoutGo (offset + t.data.length) rest

/-- The `(name, TensorInfo)` list prepared by the Layout Planner. -/
def layoutInfos (data : List (List Nat × TensorView)) : List (List Nat × TensorInfo) :=
  layoutGo 0 (prepareSort data)

/-! ### JSON encoding of the header (serde_json::to_string of Metadata) -/

/-- Lowercase hex digit, as serde_json writes control-character escapes. -/
def hexDigit (n : Nat) : Nat := if n < 10 then 48 + n else 87 + n

/-- serde_json's byte-level string escaping: quote, backslash and control
characters are escaped; everything else (including multi-byte UTF-8
sequences) passes through. -/
def jsonEscapeByte (b : Nat) : List Nat :=
  if b = 34 then [92, 34]
  else if b = 92 then [92, 92]
  else if b = 8 then [92, 98]
  else if b = 9 then [92, 116]
  else if b = 10 then [92, 110]
  else if b = 12 then [92, 102]
  else if b = 13 then [92, 114]
  else if b < 32 then [92, 117, 48, 48, hexDigit (b / 16), hexDigit (b % 16)]
  else [b]

/-- A JSON string literal from its content bytes. -/
def jsonString (s : List Nat) : List Nat := 34 :: s.flatMap jsonEscapeByte ++ [34]

/-- Decimal ASCII of a natural number, as serde_json writes integers. -/
def jsonNat (n : Nat) : List Nat := strBytes (toString n)

/-- A compact JSON array of integers. -/
def jsonNatList (l : List Nat) : List Nat :=
  91 :: List.intercalate [44] (l.map jsonNat) ++ [93]

/-- The serde tag of each `Dtype` variant (derived Serialize uses the
variant's name; `Display` in the source prints the same strings). -/
def Dtype.tag : Dtype → List Nat
  | .BOOL => strBytes "BOOL"
  | .F4 => strBytes "F4"
  | .F6_E2M3 => strBytes "F6_E2M3"
  | .F6_E3M2 => strBytes "F6_E3M2"
  | .U8 => strBytes "U8"
  | .I8 => strBytes "I8"
  | .F8_E5M2 => strBytes "F8_E5M2"
  | .F8_E4M3 => strBytes "F8_E4M3"
  | .F8_E8M0 => strBytes "F8_E8M0"
  | .I16 => strBytes "I16"
  | .U16 => strBytes "U16"
  | .F16 => strBytes "F16"
  | .BF16 => strBytes "BF16"
  | .I32 => strBytes "I32"
  | .U32 => strBytes "U32"
  | .F32 => strBytes "F32"
  | .C64 => strBytes "C64"
  | .F64 => strBytes "F64"
  | .I64 => strBytes "I64"
  | .U64 => strBytes "U64"

/-- Compact JSON of a `TensorInfo` (derived Serialize: fields in declaration
order; the offset pair becomes a two-element array). -/
def jsonTensorInfo (info : TensorInfo) : List Nat :=
  123 :: jsonString (strBytes "dtype") ++ [58] ++ jsonString info.dtype.tag
    ++ [44] ++ jsonString (strBytes "shape") ++ [58] ++ jsonNatList info.shape
    ++ [44] ++ jsonString (strBytes "data_offsets") ++ [58]
    ++ jsonNatList [info.data_offsets.1, info.data_offsets.2]
    ++ [125]

/-- Compact JSON object for the free-form string map. -/
def jsonStrMap (kvs : List (List Nat × List Nat)) : List Nat :=
  123 :: List.intercalate [44]
    (kvs.map (fun kv => jsonString kv.1 ++ [58] ++ jsonString kv.2)) ++ [125]

/-- The name list rebuilt by `Serialize for Metadata`: a vector of empty
strings of the index_map's length, overwritten at each entry's index. -/
def metadataNames (m : Metadata) : List (List Nat) :=
  (List.range m.index_map.length).map (fun i => (findNameFor m.index_map i).getD [])

/-- `serde_json::to_string(&metadata)`: the compact JSON header, an optional
leading `__metadata__` entry followed by the tensor entries in index order. -/
def jsonEncodeMetadata (m : Metadata) : List Nat :=
  let mdEntries := match m.metadata with
    | some md => [jsonString (strBytes "__metadata__") ++ [58] ++ jsonStrMap md]
    | none => []
  let tensorEntries := ((metadataNames m).zip m.tensors).map
    (fun p => jsonString p.1 ++ [58] ++ jsonTensorInfo p.2)
  123 :: List.intercalate [44] (mdEntries ++ tensorEntries) ++ [125]

/-- `PreparedData` from x8d_tensor.rs. -/
structure PreparedData where
  n : Nat
  header_bytes : List Nat
  offset : Nat
deriving DecidableEq

/-- `prepare` from x8d_tensor.rs lines 245-292: sort, assign offsets, build
and validate the metadata, encode and pad the header. (The source's
`serde_json::to_string` cannot fail on this data, so the model's encoding
is total.) -/
def prepare (data : List (List Nat × TensorView))
    (data_info : Option (List (List Nat × List Nat))) :
    Except X8DsubByteError (PreparedData × List TensorView) :=
  let sorted := prepareSort data
  let hmetadata := layoutGo 0 sorted
  let offset := sorted.foldl (fun acc p => acc + p.2.data.length) 0
  match Metadata.new data_info hmetadata with
  | .error e => .error e
  | .ok metadata =>
      let metadata_buf := jsonEncodeMetadata metadata
      let aligned_metadata_len := nextMultipleOf metadata_buf.length N_LEN
      let header_bytes := listResize metadata_buf aligned_metadata_len 32
      .ok (⟨aligned_metadata_len, header_bytes, offset⟩, sorted.map (fun p => p.2))

/-- `serialize` from x8d_tensor.rs lines 296-331: 8-byte little-endian
header length, padded header, then each tensor's bytes passed through
`apply_x8d_algorithm`. -/
def serialize (data : List (List Nat × TensorView))
    (data_info : Option (List (List Nat × List Nat))) :
    Except X8DsubByteError (List Nat) :=
  match prepare data data_info with
  | .error e => .error e
  | .ok (pd, tensors) =>
      if pd.n > MAX_HEADER_SIZE then .error .HeaderTooLarge
      else
        .ok (u64le pd.n ++ pd.header_bytes
          ++ (tensors.map (fun t => apply_x8d_algorithm t.data)).flatten)

/-! ## Reader (x8d_tensor.rs lines 409-601)

`read_metadata` decodes the first 8 bytes, validates the header bytes as
UTF-8, parses them with serde_json into `HashMetadata`, converts that to an
offset-sorted `Metadata` and validates it. The JSON parsing is embedded as
a recursive-descent parser of serde_json's behaviour on the fixed header
schema (object of string keys; the `__metadata__` key holds a string map,
every other key a TensorInfo object; trailing content other than
whitespace is rejected; numbers must be unsigned integers below 2^64;
unknown TensorInfo fields are ignored, duplicate fields rejected). -/

/-- Validity of a byte list as UTF-8 (`core::str::from_utf8`): the standard
well-formedness table, rejecting overlong encodings, surrogates and code
points above 0x10FFFF. -/
def utf8Valid : List Nat → Bool
  | [] => true
  | b :: rest =>
    if b < 128 then utf8Valid rest
    else if 194 ≤ b ∧ b ≤ 223 then
      match rest with
      | c :: r => (128 ≤ c && c ≤ 191) && utf8Valid r
      | [] => false
    else if b = 224 then
      match rest with
      | c :: c2 :: r => (160 ≤ c && c ≤ 191) && (128 ≤ c2 && c2 ≤ 191) && utf8Valid r
      | _ => false
    else if 225 ≤ b ∧ b ≤ 236 then
      match rest with
      | c :: c2 :: r => (128 ≤ c && c ≤ 191) && (128 ≤ c2 && c2 ≤ 191) && utf8Valid r
      | _ => false
    else if b = 237 then
      match rest with
      | c :: c2 :: r => (128 ≤ c && c ≤ 159) && (128 ≤ c2 && c2 ≤ 191) && utf8Valid r
      | _ => false
    else if 238 ≤ b ∧ b ≤ 239 then
      match rest with
      | c :: c2 :: r => (128 ≤ c && c ≤ 191) && (128 ≤ c2 && c2 ≤ 191) && utf8Valid r
      | _ => false
    else if b = 240 then
      match rest with
      | c :: c2 :: c3 :: r =>
          (144 ≤ c && c ≤ 191) && (128 ≤ c2 && c2 ≤ 191) && (128 ≤ c3 && c3 ≤ 191)
            && utf8Valid r
      | _ => false
    else if 241 ≤ b ∧ b ≤ 243 then
      match rest with
      | c :: c2 :: c3 :: r =>
          (128 ≤ c && c ≤ 191) && (128 ≤ c2 && c2 ≤ 191) && (128 ≤ c3 && c3 ≤ 191)
            && utf8Valid r
      | _ => false
    else if b = 244 then
      match rest with
      | c :: c2 :: c3 :: r =>
          (128 ≤ c && c ≤ 143) && (128 ≤ c2 && c2 ≤ 191) && (128 ≤ c3 && c3 ≤ 191)
            && utf8Valid r
      | _ => false
    else false

/-- The intermediate `HashMetadata` deserialization helper struct. -/
structure HashMetadata where
  metadata : Option (List (List Nat × List Nat))
  tensors : List (List Nat × TensorInfo)
deriving DecidableEq

/-- `HashMap::insert` for the tensor map collected by deserialization. -/
def insertTensor : List (List Nat × TensorInfo) → List Nat → TensorInfo →
    List (List Nat × TensorInfo)
  | [], k, v => [(k, v)]
  | (k', v') :: rest, k, v =>
      if k' = k then (k, v) :: rest else (k', v') :: insertTensor rest k v

/-- `HashMap::insert` for the free-form string map. -/
def insertStr : List (List Nat × List Nat) → List Nat → List Nat →
    List (List Nat × List Nat)
  | [], k, v => [(k, v)]
  | (k', v') :: rest, k, v =>
      if k' = k then (k, v) :: rest else (k', v') :: insertStr rest k v

/-- Skip JSON whitespace. -/
def skipWs (l : List Nat) : List Nat :=
  l.dropWhile (fun b => b == 32 || b == 9 || b == 10 || b == 13)

/-- Value of one hex digit byte. -/
def hexVal (b : Nat) : Option Nat :=
  if 48 ≤ b ∧ b ≤ 57 then some (b - 48)
  else if 97 ≤ b ∧ b ≤ 102 then some (b - 87)
  else if 65 ≤ b ∧ b ≤ 70 then some (b - 55)
  else none

/-- Four hex digits after a `\u` escape. -/
def parseHex4 : List Nat → Option (Nat × List Nat)
  | a :: b :: c :: d :: rest => do
      let va ← hexVal a
      let vb ← hexVal b
      let vc ← hexVal c
      let vd ← hexVal d
      return (va * 4096 + vb * 256 + vc * 16 + vd, rest)
  | _ => none

/-- Body of a JSON string after its opening quote: decoded content bytes and
the remainder. Raw control bytes and malformed or lone-surrogate escapes
are errors, as in serde_json. -/
def parseStringBody : Nat → List Nat → Option (List Nat × List Nat)
  | 0, _ => none
  | _ + 1, [] => none
  | _ + 1, 34 :: rest => some ([], rest)
  | fuel + 1, 92 :: esc =>
      match esc with
      | 34 :: r => (parseStringBody fuel r).map (fun p => (34 :: p.1, p.2))
      | 92 :: r => (parseStringBody fuel r).map (fun p => (92 :: p.1, p.2))
      | 47 :: r => (parseStringBody fuel r).map (fun p => (47 :: p.1, p.2))
      | 98 :: r => (parseStringBody fuel r).map (fun p => (8 :: p.1, p.2))
      | 102 :: r => (parseStringBody fuel r).map (fun p => (12 :: p.1, p.2))
      | 110 :: r => (parseStringBody fuel r).map (fun p => (10 :: p.1, p.2))
      | 114 :: r => (parseStringBody fuel r).map (fun p => (13 :: p.1, p.2))
      | 116 :: r => (parseStringBody fuel r).map (fun p => (9 :: p.1, p.2))
      | 117 :: r =>
          match parseHex4 r with
          | none => none
          | some (n, r2) =>
              if 55296 ≤ n ∧ n ≤ 56319 then
                match r2 with
                | 92 :: 117 :: r3 =>
                    match parseHex4 r3 with
                    | some (lo, r4) =>
                        if 56320 ≤ lo ∧ lo ≤ 57343 then
                          (parseStringBody fuel r4).map (fun p =>
                            (utf8Enc (65536 + (n - 55296) * 1024 + (lo - 56320)) ++ p.1, p.2))
                        else none
                    | none => none
                | _ => none
              else if 56320 ≤ n ∧ n ≤ 57343 then none
              else (parseStringBody fuel r2).map (fun p => (utf8Enc n ++ p.1, p.2))
      | _ => none
  | fuel + 1, b :: rest =>
      if b < 32 then none
      else (parseStringBody fuel rest).map (fun p => (b :: p.1, p.2))

/-- A JSON string including its opening quote. -/
def parseString (l : List Nat) : Option (List Nat × List Nat) :=
  match l with
  | 34 :: rest => parseStringBody (rest.length + 1) rest
  | _ => none

/-- Accumulate decimal digits. -/
def parseDigitsAcc : List Nat → Nat → Nat × List Nat
  | b :: rest, acc =>
      if 48 ≤ b ∧ b ≤ 57 then parseDigitsAcc rest (acc * 10 + (b - 48))
      else (acc, b :: rest)
  | [], acc => (acc, [])

/-- True when the next byte would extend or float-ify a number literal. -/
def numberContinues : List Nat → Bool
  | b :: _ => (48 ≤ b && b ≤ 57) || b == 46 || b == 101 || b == 69
  | [] => false

/-- A JSON unsigned integer for a `usize` destination, as serde_json accepts
it: no sign, no leading zeros, no fraction or exponent, value below 2^64. -/
def parseUsize (l : List Nat) : Option (Nat × List Nat) :=
  match l with
  | 48 :: rest => if numberContinues rest then none else some (0, rest)
  | b :: rest =>
      if 49 ≤ b ∧ b ≤ 57 then
        let p := parseDigitsAcc rest (b - 48)
        if numberContinues p.2 then none
        else if p.1 < usizeBound then some p else none
      else none
  | [] => none

/-- A JSON array of `usize` values (the `shape` field). -/
def parseUsizeItems : Nat → List Nat → Option (List Nat × List Nat)
  | 0, _ => none
  | fuel + 1, l => do
      let (n, r) ← parseUsize (skipWs l)
      match skipWs r with
      | 44 :: r2 => (parseUsizeItems fuel r2).map (fun p => (n :: p.1, p.2))
      | 93 :: r2 => some ([n], r2)
      | _ => none

/-- A JSON array of `usize` values including the brackets. -/
def parseUsizeArray (l : List Nat) : Option (List Nat × List Nat) :=
  match skipWs l with
  | 91 :: rest =>
      match skipWs rest with
      | 93 :: r => some ([], r)
      | r => parseUsizeItems (r.length + 1) r
  | _ => none

/-- Skip any JSON value (used for unknown TensorInfo fields, which derived
serde Deserialize ignores). Accepts the full JSON value grammar. -/
def parseSkipValue : Nat → List Nat → Option (List Nat)
  | 0, _ => none
  | fuel + 1, l =>
      match skipWs l with
      | 110 :: 117 :: 108 :: 108 :: r => some r
      | 116 :: 114 :: 117 :: 101 :: r => some r
      | 102 :: 97 :: 108 :: 115 :: 101 :: r => some r
      | 34 :: r => (parseStringBody (r.length + 1) r).map (fun p => p.2)
      | 91 :: r =>
          (match skipWs r with
           | 93 :: r2 => some r2
           | r2 => skipItems fuel r2)
      | 123 :: r =>
          (match skipWs r with
           | 125 :: r2 => some r2
           | r2 => skipMembers fuel r2)
      | 45 :: r => skipNumberTail r
      | b :: r =>
          if 48 ≤ b ∧ b ≤ 57 then skipNumberTail (b :: r) else none
      | [] => none
where
  /-- Skip the digits, fraction and exponent of a number literal. -/
  skipNumberTail (l : List Nat) : Option (List Nat) :=
    match l with
    | b :: rest =>
        if 48 ≤ b ∧ b ≤ 57 then
          let p := parseDigitsAcc rest 0
          let afterInt := p.2
          let afterFrac :=
            match afterInt with
            | 46 :: f :: fr =>
                if 48 ≤ f ∧ f ≤ 57 then some (parseDigitsAcc fr 0).2 else none
            | _ => some afterInt
          match afterFrac with
          | none => none
          | some l2 =>
              match l2 with
              | 101 :: e1 :: er =>
                  skipExpDigits (e1 :: er)
              | 69 :: e1 :: er =>
                  skipExpDigits (e1 :: er)
              | _ => some l2
        else none
    | [] => none
  /-- Skip an exponent's optional sign and digits. -/
  skipExpDigits (l : List Nat) : Option (List Nat) :=
    match l with
    | 43 :: d :: r => if 48 ≤ d ∧ d ≤ 57 then some (parseDigitsAcc r 0).2 else none
    | 45 :: d :: r => if 48 ≤ d ∧ d ≤ 57 then some (parseDigitsAcc r 0).2 else none
    | d :: r => if 48 ≤ d ∧ d ≤ 57 then some (parseDigitsAcc r 0).2 else none
    | [] => none
  /-- Skip the remaining items of a non-empty array. -/
  skipItems : Nat → List Nat → Option (List Nat)
    | 0, _ => none
    | fuel + 1, l => do
        let r ← parseSkipValue fuel l
        match skipWs r with
        | 44 :: r2 => skipItems fuel r2
        | 93 :: r2 => some r2
        | _ => none
  /-- Skip the remaining members of a non-empty object. -/
  skipMembers : Nat → List Nat → Option (List Nat)
    | 0, _ => none
    | fuel + 1, l => do
        let (_, r) ← parseString (skipWs l)
        match skipWs r with
        | 58 :: r2 => do
            let r3 ← parseSkipValue fuel r2
            match skipWs r3 with
            | 44 :: r4 => skipMembers fuel r4
            | 125 :: r4 => some r4
            | _ => none
        | _ => none

/-- The serde tags of the `Dtype` variants, for derived Deserialize. -/
def dtypeTags : List (List Nat × Dtype) :=
  [(strBytes "BOOL", .BOOL), (strBytes "F4", .F4), (strBytes "F6_E2M3", .F6_E2M3),
   (strBytes "F6_E3M2", .F6_E3M2), (strBytes "U8", .U8), (strBytes "I8", .I8),
   (strBytes "F8_E5M2", .F8_E5M2), (strBytes "F8_E4M3", .F8_E4M3),
   (strBytes "F8_E8M0", .F8_E8M0), (strBytes "I16", .I16), (strBytes "U16", .U16),
   (strBytes "F16", .F16), (strBytes "BF16", .BF16), (strBytes "I32", .I32),
   (strBytes "U32", .U32), (strBytes "F32", .F32), (strBytes "C64", .C64),
   (strBytes "F64", .F64), (strBytes "I64", .I64), (strBytes "U64", .U64)]

/-- Parse a dtype tag string into a `Dtype` (unknown tags are errors). -/
def tagToDtype (s : List Nat) : Option Dtype :=
  (dtypeTags.find? (fun p => p.1 == s)).map (fun p => p.2)

/-- The `data_offsets` field: a `(usize, usize)` tuple deserialized from an
array of exactly two integers. -/
def parseOffsetsPair (l : List Nat) : Option ((Nat × Nat) × List Nat) :=
  match skipWs l with
  | 91 :: rest => do
      let (a, r) ← parseUsize (skipWs rest)
      match skipWs r with
      | 44 :: r2 => do
          let (b, r3) ← parseUsize (skipWs r2)
          match skipWs r3 with
          | 93 :: r4 => some ((a, b), r4)
          | _ => none
      | _ => none
  | _ => none

/-- The members of a TensorInfo object (after its opening brace, first key
next): tracks each field, rejecting duplicates, ignoring unknown fields. -/
def parseTIMembers : Nat → Option Dtype → Option (List Nat) → Option (Nat × Nat) →
    List Nat → Option (TensorInfo × List Nat)
  | 0, _, _, _, _ => none
  | fuel + 1, dt, sh, off, l => do
      let (key, r) ← parseString (skipWs l)
      match skipWs r with
      | 58 :: r2 =>
          let step : Option ((Option Dtype × Option (List Nat) × Option (Nat × Nat)) × List Nat) :=
            if key = strBytes "dtype" then
              if dt.isSome then none
              else do
                let (tag, r3) ← parseString (skipWs r2)
                let d ← tagToDtype tag
                return ((some d, sh, off), r3)
            else if key = strBytes "shape" then
              if sh.isSome then none
              else do
                let (dims, r3) ← parseUsizeArray r2
                return ((dt, some dims, off), r3)
            else if key = strBytes "data_offsets" then
              if off.isSome then none
              else do
                let (pr, r3) ← parseOffsetsPair r2
                return ((dt, sh, some pr), r3)
            else do
              let r3 ← parseSkipValue (r2.length + 1) r2
              return ((dt, sh, off), r3)
          match step with
          | none => none
          | some ((dt', sh', off'), r3) =>
              match skipWs r3 with
              | 44 :: r4 => parseTIMembers fuel dt' sh' off' r4
              | 125 :: r4 => do
                  let d ← dt'
                  let s ← sh'
                  let o ← off'
                  return (⟨d, s, o⟩, r4)
              | _ => none
      | _ => none

/-- A TensorInfo object (missing fields are errors; an empty object is too). -/
def parseTensorInfo (l : List Nat) : Option (TensorInfo × List Nat) :=
  match skipWs l with
  | 123 :: rest =>
      (match skipWs rest with
       | 125 :: _ => none
       | r => parseTIMembers (r.length + 1) none none none r)
  | _ => none

/-- The members of the `__metadata__` string map (after its opening brace,
first key next); duplicate keys overwrite as in a `HashMap`. -/
def parseStrMembers : Nat → List (List Nat × List Nat) → List Nat →
    Option (List (List Nat × List Nat) × List Nat)
  | 0, _, _ => none
  | fuel + 1, acc, l => do
      let (key, r) ← parseString (skipWs l)
      match skipWs r with
      | 58 :: r2 => do
          let (v, r3) ← parseString (skipWs r2)
          let acc' := insertStr acc key v
          match skipWs r3 with
          | 44 :: r4 => parseStrMembers fuel acc' r4
          | 125 :: r4 => some (acc', r4)
          | _ => none
      | _ => none

/-- The `__metadata__` value: an object of string-to-string entries. -/
def parseStrMap (l : List Nat) : Option (List (List Nat × List Nat) × List Nat) :=
  match skipWs l with
  | 123 :: rest =>
      (match skipWs rest with
       | 125 :: r => some ([], r)
       | r => parseStrMembers (r.length + 1) [] r)
  | _ => none

/-- The members of the top-level header object (after its opening brace,
first key next): `__metadata__` fills the optional map (a second
occurrence is a duplicate-field error), every other key parses a
TensorInfo; duplicate tensor names overwrite as in a `HashMap`. -/
def parseTopMembers : Nat → HashMetadata → List Nat → Option (HashMetadata × List Nat)
  | 0, _, _ => none
  | fuel + 1, acc, l => do
      let (key, r) ← parseString (skipWs l)
      match skipWs r with
      | 58 :: r2 => do
          let (acc', r3) ←
            if key = strBytes "__metadata__" then
              if acc.metadata.isSome then none
              else (parseStrMap r2).map (fun p => ({ acc with metadata := some p.1 }, p.2))
            else
              (parseTensorInfo r2).map (fun p =>
                ({ acc with tensors := insertTensor acc.tensors key p.1 }, p.2))
          match skipWs r3 with
          | 44 :: r4 => parseTopMembers fuel acc' r4
          | 125 :: r4 => some (acc', r4)
          | _ => none
      | _ => none

/-- serde_json::from_str::&lt;HashMetadata&gt; on the header bytes: the top-level
object, allowing surrounding whitespace and nothing else. -/
def parseHeader (l : List Nat) : Option HashMetadata :=
  match skipWs l with
  | 123 :: rest => do
      let (hm, r) ←
        match skipWs rest with
        | 125 :: r => some (({ metadata := none, tensors := [] } : HashMetadata), r)
        | r => parseTopMembers (r.length + 1) { metadata := none, tensors := [] } r
      if (skipWs r).isEmpty then some hm else none
  | _ => none

/-- The offset order used by `TryFrom<HashMetadata> for Metadata`:
ascending `data_offsets`, compared as pairs. -/
def offLE (a b : List Nat × TensorInfo) : Prop :=
  a.2.data_offsets.1 < b.2.data_offsets.1 ∨
    (a.2.data_offsets.1 = b.2.data_offsets.1 ∧ a.2.data_offsets.2 ≤ b.2.data_offsets.2)

instance : DecidableRel offLE := fun a b => by
  unfold offLE; infer_instance

/-- `TryFrom<HashMetadata> for Metadata`: re-sort the name-keyed entries by
ascending data_offsets, then build and validate the Metadata. -/
def hashToMetadata (h : HashMetadata) : Except X8DsubByteError Metadata :=
  Metadata.new h.metadata (h.tensors.insertionSort offLE)

/-- `X8DsubByteTensors` from x8d_tensor.rs. -/
structure X8DsubByteTensors where
  metadata : Metadata
  data : List Nat
deriving DecidableEq

/-- `X8DsubByteTensors::read_metadata` from x8d_tensor.rs lines 422-462. -/
def read_metadata (buffer : List Nat) : Except X8DsubByteError (Nat × Metadata) :=
  if buffer.length < N_LEN then .error .HeaderTooSmall
  else
    -- u64::from_le_bytes of the 8-byte prefix; the u64-to-usize conversion
    -- cannot fail for a 64-bit usize (its failure is mapped to HeaderTooLarge).
    let n := le64 (buffer.take N_LEN)
    if n > MAX_HEADER_SIZE then .error .HeaderTooLarge
    else
      -- n.checked_add(N_LEN) cannot overflow here since n ≤ MAX_HEADER_SIZE.
      let stop := n + N_LEN
      if buffer.length < stop then .error .InvalidHeaderLength
      else
        let header_bytes := sliceBytes buffer N_LEN stop
        if ¬ utf8Valid header_bytes then .error .InvalidHeader
        else
          match parseHeader header_bytes with
          | none => .error .InvalidHeaderDeserialization
          | some hm =>
              match hashToMetadata hm with
              | .error e => .error e
              | .ok metadata =>
                  match metadata.validate with
                  | .error e => .error e
                  | .ok buffer_end =>
                      if buffer_end + N_LEN + n ≠ buffer.length then
                        .error .MetadataIncompleteBuffer
                      else .ok (n, metadata)

/-- `X8DsubByteTensors::deserialize`. -/
def X8DsubByteTensors.deserialize (buffer : List Nat) :
    Except X8DsubByteError X8DsubByteTensors :=
  match read_metadata buffer with
  | .error e => .error e
  | .ok (n, metadata) => .ok ⟨metadata, buffer.drop (N_LEN + n)⟩

/-- `X8DsubByteTensors::tensor` from x8d_tensor.rs lines 552-581: look the
name up, slice the payload at the entry's offsets (in bounds for any
buffer accepted by read_metadata) and run the reverse x8d transform over
the bytes. -/
def X8DsubByteTensors.tensor (st : X8DsubByteTensors) (tensor_name : List Nat) :
    Except X8DsubByteError TensorView :=
  match assocFind st.metadata.index_map tensor_name with
  | none => .error (.TensorNotFound tensor_name)
  | some index =>
      match st.metadata.tensors.get? index with
      | none => .error (.TensorNotFound tensor_name)
      | some info =>
          let compressed := sliceBytes st.data info.data_offsets.1 info.data_offsets.2
          .ok ⟨info.dtype, info.shape, reverse_x8d_algorithm compressed⟩

/-! ## Spec-side definition for the Layout Planner ordering

The spec states the planner sorts "by descending dtype alignment class,
then by ascending name", where the alignment class groups dtypes by bit
width. This definition follows those words, to be compared with
`prepareSort` (the order implemented by `prepare`). -/

/-- Spec's comparator: descending alignment class (bit width), ties broken
by ascending name. -/
def specClassLE (a b : List Nat × TensorView) : Prop :=
  b.2.dtype.bitsize < a.2.dtype.bitsize ∨
    (b.2.dtype.bitsize = a.2.dtype.bitsize ∧ bytesLe a.1 b.1 = true)

instance : DecidableRel specClassLE := fun a b => by
  unfold specClassLE; infer_instance

/-- The order the spec sentence describes (stable, like Rust's sort_by). -/
def specLayoutSort (data : List (List Nat × TensorView)) : List (List Nat × TensorView) :=
  data.insertionSort specClassLE

/-- Sum of the byte lengths of a tensor list (the planner's final cursor). -/
def sumLens (l : List (List Nat × TensorView)) : Nat :=
  (l.map (fun p => p.2.data.length)).sum

/-! ## Concrete inputs used by the claim theorems -/

/-- One named tensor `t`: U8, shape `[1]`, data byte 7. -/
def exC1 : List (List Nat × TensorView) := [(strBytes "t", ⟨.U8, [1], [7]⟩)]

/-- The full write-then-read pipeline applied to `exC1`, extracting tensor `t`. -/
def roundTripC1 : Except X8DsubByteError TensorView := do
  let buf ← serialize exC1 none
  let st ← X8DsubByteTensors.deserialize buf
  st.tensor (strBytes "t")

/-- One named tensor `t2`: U8, shape `[1]`, data byte 9. -/
def exC2 : List (List Nat × TensorView) := [(strBytes "t2", ⟨.U8, [1], [9]⟩)]

/-- The buffer produced by serializing `exC2` (used as a concrete witness). -/
def c9buf : List Nat := (serialize exC2 none).toOption.getD []

/-- The claim C3 example: a U8 tensor of shape `[2,3,4]` over bytes `0..24`. -/
def exC3 : TensorView := ⟨.U8, [2, 3, 4], List.range 24⟩

/-- A sub-byte (F4) tensor: shape `[2]`, one byte. -/
def exC4 : TensorView := ⟨.F4, [2], [0]⟩

/-- Two entries of the same 8-bit alignment class with conflicting
dtype/name orders: `a` is U8, `z` is I8 (I8 is the later `Dtype` variant). -/
def exC6tie : List (List Nat × TensorView) :=
  [(strBytes "a", ⟨.U8, [1], [0]⟩), (strBytes "z", ⟨.I8, [1], [0]⟩)]

/-- The spec's end-to-end example pair: `a` (I32, shape `[2,2]`, 16 bytes)
and `b` (U8, shape `[1]`, 1 byte), supplied in reverse name order. -/
def exC6ex : List (List Nat × TensorView) :=
  [(strBytes "b", ⟨.U8, [1], [7]⟩),
   (strBytes "a", ⟨.I32, [2, 2], [0,0,0,0, 1,0,0,0, 2,0,0,0, 3,0,0,0]⟩)]

/-- A metadata whose second entry starts at 2 while the first ends at 1. -/
def exC8bad : Metadata :=
  { metadata := none
    tensors := [⟨.U8, [1], (0, 1)⟩, ⟨.U8, [1], (2, 3)⟩]
    index_map := indexMapOf [strBytes "x", strBytes "y"] }

/-- A valid two-entry metadata with contiguous offsets `(0,1)`, `(1,2)`. -/
def exC8ok : Metadata :=
  { metadata := none
    tensors := [⟨.U8, [1], (0, 1)⟩, ⟨.U8, [1], (1, 2)⟩]
    index_map := indexMapOf [strBytes "x", strBytes "y"] }

/-! # Theorems for the claims -/

/-- C1: round-trip evidence at a concrete input. Serializing the single U8
tensor `t` of shape `[1]` with data byte 7 and deserializing the produced
buffer yields a view with the same dtype and shape but data byte 0: the
write path maps every payload byte through the x8d transform
(`(b * 0.001) as u8 = 0`) and the read path's reverse transform maps 0
back to 0, so the original byte 7 is not recovered and the round-trip
property fails. -/
theorem roundTrip_loses_bytes :
    roundTripC1 = .ok ⟨.U8, [1], [0]⟩ ∧ ([0] : List Nat) ≠ [7] := by
  constructor
  · decide
  · decide

/-- C2: payload evidence at a concrete input. For the single U8 tensor `t2`
with data byte 9, the bytes of the serialized buffer from offset
`8 + N` to the end are `[0]`, not the tensor's raw byte `[9]`: `serialize`
passes every tensor's bytes through `apply_x8d_algorithm` instead of
concatenating them unmodified. -/
theorem serialize_transforms_payload :
    (serialize exC2 none).map (fun buf => buf.drop (8 + le64 (buf.take 8))) = .ok [0] ∧
    apply_x8d_algorithm [9] = [0] ∧ ([0] : List Nat) ≠ [9] := by
  refine ⟨by decide, by decide, by decide⟩

/-- C3: slice evidence at the claim's own example. For the U8 tensor of
shape `[2,3,4]` over bytes `0..24`, selecting index 1 on dimension 0, the
iterator emits 12 single-byte slices followed by exhaustion — but they
read bytes `0..12` of the backing buffer (values 0..11), not bytes
`12..24` as the claim requires: `next` drops the per-dimension slice start
from its address computation. -/
theorem sliceIterator_reads_wrong_bytes :
    (SliceIterator.new exC3 [⟨[.Single 1]⟩]).map (fun it => it.nexts 13)
      = .ok ((List.range 12).map (fun k => some [k]) ++ [none]) ∧
    (List.range 12).map (fun k => [k]) ≠ (List.range 12).map (fun k => [12 + k]) := by
  refine ⟨by decide, by decide⟩

/-- C4: constructing a slice iterator over a sub-byte (F4) tensor does not
fail: `SliceIterator::new` performs no bit-width check, returns `Ok`, and
stores `element_size = bitsize / 8 = 0` (so iteration would emit empty
slices); the claimed `MisalignedSlice` construction error never occurs. -/
theorem subbyte_slice_construction_succeeds :
    (SliceIterator.new exC4 []).isOk = true ∧
    SliceIterator.new exC4 [] ≠ .error .MisalignedSlice ∧
    (SliceIterator.new exC4 []).map (fun it => it.element_size) = .ok 0 := by
  refine ⟨by decide, by decide, by decide⟩

/-- C5 counterexample: BOOL compares strictly before F4 in the `Dtype`
order, yet BOOL's bit width (8) is larger than F4's (4), so the order is
not monotone in bit width as claimed. -/
theorem dtype_order_not_bitsize_monotone :
    Dtype.lt .BOOL .F4 = true ∧ ¬ Dtype.bitsize .BOOL ≤ Dtype.bitsize .F4 := by
  decide

/-- C5 amended: away from the BOOL variant (which is declared first with
bit width 8, before the 4- and 6-bit variants), the `Dtype` order is
monotone in bit width: if `a < b` and `a` is not BOOL then
`bitsize a ≤ bitsize b`. -/
theorem dtype_lt_bitsize_mono :
    ∀ a b : Dtype, Dtype.lt a b = true → a ≠ .BOOL → a.bitsize ≤ b.bitsize := by
  decide

/-- Witness for the amended C5 theorem at `a = F4`, `b = U8`. -/
theorem dtype_lt_bitsize_mono_witness :
    Dtype.bitsize .F4 ≤ Dtype.bitsize .U8 :=
  dtype_lt_bitsize_mono .F4 .U8 (by decide) (by decide)

/-- C7: `read_metadata` fails with `HeaderTooSmall` on buffers shorter than
8 bytes, and with `HeaderTooLarge` whenever the first 8 bytes decode
(little-endian) to a value above 100,000,000. -/
theorem read_metadata_size_limits (buffer : List Nat) :
    (buffer.length < 8 → read_metadata buffer = .error .HeaderTooSmall) ∧
    (8 ≤ buffer.length → 100000000 < le64 (buffer.take 8) →
      read_metadata buffer = .error .HeaderTooLarge) := by
  constructor
  · intro h
    have hlt : buffer.length < N_LEN := by simpa [N_LEN] using h
    unfold read_metadata
    rw [if_pos hlt]
  · intro h1 h2
    have hlt : ¬ buffer.length < N_LEN := by simp only [N_LEN]; omega
    have hbig : le64 (buffer.take N_LEN) > MAX_HEADER_SIZE := by
      simpa [N_LEN, MAX_HEADER_SIZE] using h2
    unfold read_metadata
    rw [if_neg hlt, if_pos hbig]

/-- Witness for C7: the empty buffer is too small; a buffer holding the
little-endian encoding of 100,000,001 is rejected as too large. -/
theorem read_metadata_size_limits_witness :
    read_metadata [] = .error .HeaderTooSmall ∧
    read_metadata (u64le 100000001) = .error .HeaderTooLarge :=
  ⟨(read_metadata_size_limits []).1 (by decide),
   (read_metadata_size_limits (u64le 100000001)).2 (by decide) (by decide)⟩

/-- One unfolding of `bytesLe` on two nonempty lists. -/
theorem bytesLe_cons_iff (x y : Nat) (xs ys : List Nat) :
    bytesLe (x :: xs) (y :: ys) = true ↔
      x < y ∨ (x = y ∧ bytesLe xs ys = true) := by
  simp only [bytesLe]
  split
  · next h => simp [h]
  · next h =>
      split
      · next h2 =>
          constructor
          · intro hF; cases hF
          · intro hc
            rcases hc with hc | ⟨hc, -⟩
            · omega
            · omega
      · next h2 =>
          have hxy : x = y := by omega
          simp [hxy]

/-- `bytesLe` is total. -/
theorem bytesLe_total : ∀ x y : List Nat, bytesLe x y = true ∨ bytesLe y x = true := by
  intro x
  induction x with
  | nil => intro y; left; rfl
  | cons a xs ih =>
      intro y
      cases y with
      | nil => right; rfl
      | cons b ys =>
          rcases Nat.lt_trichotomy a b with h | h | h
          · left; rw [bytesLe_cons_iff]; exact Or.inl h
          · rcases ih ys with hr | hr
            · left; rw [bytesLe_cons_iff]; exact Or.inr ⟨h, hr⟩
            · right; rw [bytesLe_cons_iff]; exact Or.inr ⟨h.symm, hr⟩
          · right; rw [bytesLe_cons_iff]; exact Or.inl h

/-- `bytesLe` is transitive. -/
theorem bytesLe_trans :
    ∀ x y z : List Nat, bytesLe x y = true → bytesLe y z = true → bytesLe x z = true := by
  intro x
  induction x with
  | nil => intro y z _ _; rfl
  | cons a xs ih =>
      intro y z hxy hyz
      cases y with
      | nil => simp [bytesLe] at hxy
      | cons b ys =>
          cases z with
          | nil => simp [bytesLe] at hyz
          | cons c zs =>
              rw [bytesLe_cons_iff] at hxy hyz ⊢
              rcases hxy with h1 | ⟨h1, h1'⟩ <;> rcases hyz with h2 | ⟨h2, h2'⟩
              · exact Or.inl (by omega)
              · exact Or.inl (by omega)
              · exact Or.inl (by omega)
              · exact Or.inr ⟨by omega, ih ys zs h1' h2'⟩

/-- `bytesLe` is antisymmetric. -/
theorem bytesLe_antisymm :
    ∀ x y : List Nat, bytesLe x y = true → bytesLe y x = true → x = y := by
  intro x
  induction x with
  | nil =>
      intro y _ hyx
      cases y with
      | nil => rfl
      | cons b ys => simp [bytesLe] at hyx
  | cons a xs ih =>
      intro y hxy hyx
      cases y with
      | nil => simp [bytesLe] at hxy
      | cons b ys =>
          rw [bytesLe_cons_iff] at hxy hyx
          rcases hxy with h1 | ⟨h1, h1'⟩ <;> rcases hyx with h2 | ⟨h2, h2'⟩
          · omega
          · omega
          · omega
          · rw [h1, ih ys h1' h2']

instance : IsTrans (List Nat × TensorView) planLE :=
  ⟨by
    intro a b c hab hbc
    rcases hab with h1 | ⟨h1, h1'⟩ <;> rcases hbc with h2 | ⟨h2, h2'⟩
    · exact Or.inl (by omega)
    · exact Or.inl (by omega)
    · exact Or.inl (by omega)
    · exact Or.inr ⟨by omega, bytesLe_trans _ _ _ h1' h2'⟩⟩

instance : IsTotal (List Nat × TensorView) planLE :=
  ⟨by
    intro a b
    rcases Nat.lt_trichotomy a.2.dtype.toIdx b.2.dtype.toIdx with h | h | h
    · exact Or.inr (Or.inl h)
    · rcases bytesLe_total a.1 b.1 with hb | hb
      · exact Or.inl (Or.inr ⟨h.symm, hb⟩)
      · exact Or.inr (Or.inr ⟨h, hb⟩)
    · exact Or.inl (Or.inl h)⟩

/-- Two sorted lists that are permutations of each other and whose shared
elements can only tie when equal are the same list. -/
theorem sorted_perm_unique {α : Type _} {r : α → α → Prop} :
    ∀ {l₁ l₂ : List α}, l₁.Sorted r → l₂.Sorted r → l₁.Perm l₂ →
      (∀ a ∈ l₁, ∀ b ∈ l₂, r a b → r b a → a = b) → l₁ = l₂ := by
  intro l₁
  induction l₁ with
  | nil =>
      intro l₂ _ _ hp _
      exact (hp.symm.eq_nil).symm
  | cons a t ih =>
      intro l₂ h₁ h₂ hp hanti
      cases l₂ with
      | nil => cases hp.eq_nil
      | cons b t₂ =>
          have hmem_a : a ∈ b :: t₂ := hp.mem_iff.mp (by simp)
          have hmem_b : b ∈ a :: t := hp.mem_iff.mpr (by simp)
          have hab : a = b := by
            rcases List.mem_cons.mp hmem_a with h | h
            · exact h
            · have hba : r b a := List.rel_of_sorted_cons h₂ a h
              rcases List.mem_cons.mp hmem_b with h' | h'
              · exact h'.symm
              · have hab' : r a b := List.rel_of_sorted_cons h₁ b h'
                exact hanti a (by simp) b (by simp) hab' hba
          subst hab
          have hp' : t.Perm t₂ := hp.cons_inv
          have ht : t = t₂ :=
            ih h₁.of_cons h₂.of_cons hp'
              (fun x hx y hy hxy hyx =>
                hanti x (List.mem_cons_of_mem a hx) y (List.mem_cons_of_mem a hy) hxy hyx)
          rw [ht]

/-- The planner's offset assignment: the entry at position `k` covers the
byte range between the summed lengths of the tensors before it and
including it. -/
theorem layoutGo_offsets :
    ∀ (l : List (List Nat × TensorView)) (off k : Nat) (nm : List Nat) (info : TensorInfo),
      (layoutGo off l).get? k = some (nm, info) →
      info.data_offsets = (off + sumLens (l.take k), off + sumLens (l.take (k + 1))) := by
  intro l
  induction l with
  | nil => intro off k nm info h; simp [layoutGo] at h
  | cons p rest ih =>
      intro off k nm info h
      cases k with
      | zero =>
          simp only [layoutGo, List.get?] at h
          rw [Option.some.injEq, Prod.mk.injEq] at h
          obtain ⟨-, h2⟩ := h
          rw [← h2]
          simp [sumLens]
      | succ k' =>
          simp only [layoutGo, List.get?] at h
          have := ih (off + p.2.data.length) k' nm info h
          rw [this]
          simp only [List.take_succ_cons, sumLens, List.map_cons, List.sum_cons]
          rw [Prod.mk.injEq]
          constructor <;> omega

/-- The 8 little-endian bytes of a u64 have length 8. -/
theorem u64le_length (n : Nat) : (u64le n).length = 8 := by
  simp [u64le]

/-- `next_multiple_of` does not decrease its argument. -/
theorem nextMultipleOf_le (a : Nat) : a ≤ nextMultipleOf a 8 := by
  unfold nextMultipleOf
  omega

/-- `Vec::resize` produces the requested length. -/
theorem listResize_length (l : List Nat) (newLen v : Nat) :
    (listResize l newLen v).length = newLen := by
  unfold listResize
  split
  · rw [List.length_take]; omega
  · rw [List.length_append, List.length_replicate]; omega

/-- `Vec::resize` to a length at least the current one appends padding. -/
theorem listResize_eq_append (l : List Nat) (newLen v : Nat) (h : l.length ≤ newLen) :
    listResize l newLen v = l ++ List.replicate (newLen - l.length) v := by
  unfold listResize
  split
  · next h2 =>
      have he : newLen = l.length := Nat.le_antisymm h2 h
      subst he
      simp
  · rfl

/-- C6 counterexample: for two tensors of the same 8-bit alignment class,
`a` (U8) and `z` (I8), the code's sort puts `z` first (descending full
dtype order: I8 sorts after U8 in the `Dtype` enum, so before it in
descending order), while the claimed rule — descending alignment class,
ties broken by ascending name — puts `a` first. -/
theorem planner_tiebreak_counterexample :
    (prepareSort exC6tie).map (fun p => p.1) = [strBytes "z", strBytes "a"] ∧
    (specLayoutSort exC6tie).map (fun p => p.1) = [strBytes "a", strBytes "z"] ∧
    ([strBytes "z", strBytes "a"] : List (List Nat)) ≠ [strBytes "a", strBytes "z"] := by
  refine ⟨by decide, by decide, by decide⟩

/-- C6 amended: the Layout Planner sorts the entries by descending `Dtype`
order (the full enum order, which refines the alignment classes; the name
breaks ties only between equal dtypes), a deterministic total order:
the sorted list is a sorted permutation of the input and is the same for
every permutation of the input with (unique) names. Offsets are assigned
cumulatively from 0 in that order: entry `k` covers
`[sum of lengths before k, sum through k)`. In particular, for the spec's
example pair, `a` (I32, 16 bytes) precedes `b` (U8, 1 byte) with offsets
`(0,16)` and `(16,17)`. -/
theorem prepare_layout_order (data : List (List Nat × TensorView))
    (hnodup : (data.map (fun p => p.1)).Nodup) :
    List.Sorted planLE (prepareSort data) ∧
    (prepareSort data).Perm data ∧
    (∀ data', data'.Perm data → prepareSort data' = prepareSort data) ∧
    (∀ k nm info, (layoutInfos data).get? k = some (nm, info) →
      info.data_offsets
        = (sumLens ((prepareSort data).take k), sumLens ((prepareSort data).take (k + 1)))) ∧
    (layoutInfos exC6ex).map (fun p => (p.1, p.2.data_offsets))
      = [(strBytes "a", (0, 16)), (strBytes "b", (16, 17))] := by
  refine ⟨List.sorted_insertionSort planLE data, List.perm_insertionSort planLE data,
    ?_, ?_, by decide⟩
  · intro data' hperm
    apply sorted_perm_unique (List.sorted_insertionSort _ _) (List.sorted_insertionSort _ _)
      ((List.perm_insertionSort planLE data').trans
        (hperm.trans (List.perm_insertionSort planLE data).symm))
    intro a ha b hb hab hba
    have ha' : a ∈ data :=
      hperm.mem_iff.mp ((List.perm_insertionSort planLE data').mem_iff.mp ha)
    have hb' : b ∈ data := (List.perm_insertionSort planLE data).mem_iff.mp hb
    have hnames : a.1 = b.1 := by
      rcases hab with h1 | ⟨h1, h1'⟩ <;> rcases hba with h2 | ⟨h2, h2'⟩
      · exact absurd h2 (by omega)
      · exact absurd h1 (by omega)
      · exact absurd h2 (by omega)
      · exact bytesLe_antisymm _ _ h1' h2'
    exact List.inj_on_of_nodup_map hnodup ha' hb' hnames
  · intro k nm info h
    have hoff := layoutGo_offsets (prepareSort data) 0 k nm info h
    simpa using hoff

/-- Witness for the amended C6 theorem: the spec's example pair, supplied in
reverse order, is planned as `a` at `(0,16)` then `b` at `(16,17)`. -/
theorem prepare_layout_order_witness :
    (layoutInfos exC6ex).map (fun p => (p.1, p.2.data_offsets))
      = [(strBytes "a", (0, 16)), (strBytes "b", (16, 17))] :=
  (prepare_layout_order exC6ex (by decide)).2.2.2.2

/-- C9: every successful `serialize` writes, in its first 8 bytes, a header
length `N` that is the length of the serialized JSON text rounded up to a
multiple of 8; `N` is a multiple of 8, the buffer holds at least `8 + N`
bytes, and the `N` header bytes are that JSON text followed by ASCII
spaces (0x20). The JSON text is pinned to the serialization that actually
ran: it is `jsonEncodeMetadata` of the metadata `prepare` builds for this
input (whose identity the first conjunct fixes via `Metadata.new`), so
the padding conjunct really states that every byte added beyond the JSON
text is a space. -/
theorem serialize_header_aligned (data : List (List Nat × TensorView))
    (data_info : Option (List (List Nat × List Nat))) (buf : List Nat)
    (h : serialize data data_info = .ok buf) :
    ∃ metadata : Metadata,
      Metadata.new data_info (layoutGo 0 (prepareSort data)) = .ok metadata ∧
      buf.take 8 = u64le (nextMultipleOf (jsonEncodeMetadata metadata).length 8) ∧
      nextMultipleOf (jsonEncodeMetadata metadata).length 8 % 8 = 0 ∧
      8 + nextMultipleOf (jsonEncodeMetadata metadata).length 8 ≤ buf.length ∧
      (buf.drop 8).take (nextMultipleOf (jsonEncodeMetadata metadata).length 8)
        = jsonEncodeMetadata metadata
          ++ List.replicate (nextMultipleOf (jsonEncodeMetadata metadata).length 8
              - (jsonEncodeMetadata metadata).length) 32 := by
  simp only [serialize] at h
  split at h
  · exact absurd h (by simp)
  next pd tensors heq =>
    split at h
    · exact absurd h (by simp)
    next hn =>
      rw [Except.ok.injEq] at h
      simp only [prepare] at heq
      split at heq
      · exact absurd heq (by simp)
      next metadata hm =>
        rw [Except.ok.injEq, Prod.mk.injEq] at heq
        obtain ⟨hpd, -⟩ := heq
        subst hpd
        dsimp only at h
        simp only [N_LEN] at h
        refine ⟨metadata, hm, ?_, ?_, ?_, ?_⟩
        · rw [← h, List.append_assoc, List.take_left' (u64le_length _)]
        · simp [nextMultipleOf, Nat.mul_mod_left]
        · rw [← h]
          simp only [List.length_append, u64le_length, listResize_length]
          omega
        · rw [← h, List.append_assoc, List.drop_left' (u64le_length _),
            List.take_left' (listResize_length _ _ _),
            listResize_eq_append _ _ _ (nextMultipleOf_le _)]

/-- Witness for C9 at the concrete buffer serialized from `exC2`. -/
theorem serialize_header_aligned_witness :
    ∃ metadata : Metadata,
      Metadata.new none (layoutGo 0 (prepareSort exC2)) = .ok metadata ∧
      c9buf.take 8 = u64le (nextMultipleOf (jsonEncodeMetadata metadata).length 8) ∧
      nextMultipleOf (jsonEncodeMetadata metadata).length 8 % 8 = 0 ∧
      8 + nextMultipleOf (jsonEncodeMetadata metadata).length 8 ≤ c9buf.length ∧
      (c9buf.drop 8).take (nextMultipleOf (jsonEncodeMetadata metadata).length 8)
        = jsonEncodeMetadata metadata
          ++ List.replicate (nextMultipleOf (jsonEncodeMetadata metadata).length 8
              - (jsonEncodeMetadata metadata).length) 32 :=
  serialize_header_aligned exC2 none c9buf (by decide)

/-- On success, the validation walk returns the end offset of the last
entry it visited (or its starting cursor for an empty list). -/
theorem validateGo_ok_last (im : List (List Nat × Nat)) :
    ∀ (ts : List TensorInfo) (start i L),
      validateGo im start i ts = .ok L →
      L = (ts.map (fun t => t.data_offsets.2)).getLastD start := by
  intro ts
  induction ts with
  | nil =>
      intro start i L h
      simp only [validateGo, Except.ok.injEq] at h
      simp [h.symm]
  | cons info rest ih =>
      intro start i L h
      simp only [validateGo] at h
      split at h
      · simp at h
      · split at h
        · simp at h
        · split at h
          · simp at h
          · split at h
            · simp at h
            · split at h
              · simp at h
              · rw [List.map_cons, List.getLastD_cons]
                exact ih _ _ _ h

/-- Splitting the validation walk at a list boundary. -/
theorem validateGo_append (im : List (List Nat × Nat)) (l₁ l₂ : List TensorInfo) :
    ∀ start i, validateGo im start i (l₁ ++ l₂) =
      match validateGo im start i l₁ with
      | .ok c => validateGo im c (i + l₁.length) l₂
      | .error e => .error e := by
  induction l₁ with
  | nil => intro start i; simp [validateGo]
  | cons info rest ih =>
      intro start i
      simp only [List.cons_append, validateGo]
      split
      · rfl
      · split
        · rfl
        · split
          · rfl
          · split
            · rfl
            · split
              · rfl
              · rw [List.length_cons,
                  show i + (rest.length + 1) = i + 1 + rest.length from by omega,
                  show rest.append l₂ = rest ++ l₂ from rfl]
                exact ih _ (i + 1)

/-- `getLastD` over the projected end offsets, phrased on `getLast?`. -/
theorem getLastD_map_spec :
    ∀ (ts : List TensorInfo) (d : Nat),
      (ts.map (fun t => t.data_offsets.2)).getLastD d =
        match ts.getLast? with
        | some t => t.data_offsets.2
        | none => d := by
  intro ts
  induction ts with
  | nil => intro d; rfl
  | cons info rest ih =>
      intro d
      cases rest with
      | nil => rfl
      | cons b r =>
          rw [List.map_cons, List.getLastD_cons, ih, List.getLast?_cons_cons]
          cases hq : (b :: r).getLast? with
          | some t => rfl
          | none => exact absurd (List.getLast?_eq_none_iff.mp hq) (by simp)

/-- Bridge between `Metadata::data_len` and the walk's final cursor. -/
theorem data_len_getLastD (m : Metadata) :
    m.data_len = (m.tensors.map (fun t => t.data_offsets.2)).getLastD 0 := by
  unfold Metadata.data_len
  rw [getLastD_map_spec]

/-- C8: `Metadata::validate` walks the entries in index order with a running
cursor from 0. On success it returns the final cursor, which is the total
payload length (`data_len`). If the entries up to index `i` pass all their
checks leaving cursor `c`, and entry `i` starts elsewhere than `c` or ends
before its start, validation fails with `InvalidOffset` carrying the name
the index map binds to position `i` — in particular a first entry not
starting at 0, or any entry not starting at the previous entry's end, is
rejected and named. -/
theorem metadata_validate_offset_walk (m : Metadata) :
    (∀ L, m.validate = .ok L → L = m.data_len) ∧
    (∀ i info c name,
      validateGo m.index_map 0 0 (m.tensors.take i) = .ok c →
      m.tensors.get? i = some info →
      findNameFor m.index_map i = some name →
      (info.data_offsets.1 ≠ c ∨ info.data_offsets.2 < info.data_offsets.1) →
      m.validate = .error (.InvalidOffset name)) := by
  constructor
  · intro L h
    rw [data_len_getLastD]
    exact validateGo_ok_last m.index_map m.tensors 0 0 L h
  · intro i info c name hpre hget hname hbad
    have hi : i < m.tensors.length := by
      rcases List.get?_eq_some.mp hget with ⟨h, _⟩
      exact h
    have hdrop : m.tensors.drop i = info :: m.tensors.drop (i + 1) := by
      rcases List.get?_eq_some.mp hget with ⟨h, hv⟩
      rw [List.drop_eq_getElem_cons h]
      have hv' : m.tensors[i] = info := by rw [← hv]; rfl
      rw [hv']
    have hsplit : m.tensors = m.tensors.take i ++ (info :: m.tensors.drop (i + 1)) := by
      rw [← hdrop, List.take_append_drop]
    unfold Metadata.validate
    rw [hsplit, validateGo_append, hpre]
    have hlen : (m.tensors.take i).length = i := by
      rw [List.length_take]
      omega
    rw [hlen]
    simp only [validateGo]
    rw [if_pos hbad]
    simp [hname]

/-- Witness for C8: the valid metadata `exC8ok` validates to its
`data_len` 2; the metadata `exC8bad`, whose second entry starts at 2 while
the first ends at 1, fails with `InvalidOffset` naming `y`. -/
theorem metadata_validate_offset_walk_witness :
    (2 : Nat) = exC8ok.data_len ∧
    exC8bad.validate = .error (.InvalidOffset (strBytes "y")) :=
  ⟨(metadata_validate_offset_walk exC8ok).1 2 (by decide),
   (metadata_validate_offset_walk exC8bad).2 1 ⟨.U8, [1], (2, 3)⟩ 1 (strBytes "y")
     (by decide) (by decide) (by decide) (by decide)⟩

/-- C10: `SliceIterator::next` is total and in-bounds: every call returns
either nothing or a byte slice `[start, stop)` of the view's data with
`start ≤ stop ≤ data.length` (the range is checked against the buffer
length before slicing). -/
theorem sliceIterator_next_in_bounds (it : SliceIterator) :
    it.next.1 = none ∨
      ∃ start stop, start ≤ stop ∧ stop ≤ it.tensor.data.length ∧
        it.next.1 = some (sliceBytes it.tensor.data start stop) := by
  simp only [SliceIterator.next]
  split
  · exact Or.inl rfl
  · split
    next h => exact Or.inr ⟨_, _, Nat.le_add_right _ _, h.2, rfl⟩
    next => exact Or.inl rfl

end X8D
